import Mathlib

/-!
Verification of the teacrush encoding pipeline (Go).

The definitions below are a shallow embedding of the program: the pure
helpers (`buildScaleFilter`, `parseDuration`, the bitrate resolver, the
preset tables, the progress-line parser) are translated directly, and the
orchestration function `startEncoding` is modelled as a function from the
job configuration plus an environment oracle (results of the external
subprocess invocations) to the list of effects it performs (subprocess
runs with their argument vectors, removals of temporary files) together
with the final outcome message.

Machine floats of the Go source are modelled over `ℚ`; `float → int`
conversion is truncation toward zero (`ratTrunc`).
-/

namespace Teacrush

/-- Truncation toward zero of a rational, the semantics of a Go
float-to-int conversion for finite values. -/
def ratTrunc (q : ℚ) : ℤ :=
  if 0 ≤ q then ⌊q⌋ else ⌈q⌉

/-! ### String primitives

The Go source uses `strings`/`strconv` helpers.  They are re-implemented
here over `List Char` so that every definition is structurally recursive
and kernel-computable. -/

/-- Splits a character list at every occurrence of `c`
(the semantics of Go `strings.Split` with a one-character separator). -/
def splitOnChar (c : Char) : List Char → List (List Char)
  | [] => [[]]
  | a :: rest =>
    let r := splitOnChar c rest
    if a = c then [] :: r
    else
      match r with
      | [] => [[a]]
      | h :: t => (a :: h) :: t

/-- Prefix test on character lists. -/
def isPreC : List Char → List Char → Bool
  | [], _ => true
  | _ :: _, [] => false
  | a :: as, b :: bs => a = b && isPreC as bs

/-- Substring test on character lists (Go `strings.Contains`). -/
def isInfC (pat : List Char) : List Char → Bool
  | [] => pat.isEmpty
  | a :: rest => isPreC pat (a :: rest) || isInfC pat rest

/-- Go `strings.Split` with a one-character separator, on `String`. -/
def strSplit (s : String) (c : Char) : List String :=
  (splitOnChar c s.data).map String.mk

/-- Go `strings.ReplaceAll` for one-character pattern and replacement. -/
def strReplaceChar (s : String) (a b : Char) : String :=
  ⟨s.data.map fun ch => if ch = a then b else ch⟩

/-- Go `strings.Contains` with a one-character pattern. -/
def strContainsChar (s : String) (c : Char) : Bool :=
  s.data.contains c

/-- Go `strings.Contains` (substring). -/
def containsSub (s pat : String) : Bool :=
  isInfC pat.data s.data

/-- Go `strings.TrimSpace`. -/
def strTrim (s : String) : String :=
  ⟨((s.data.dropWhile Char.isWhitespace).reverse.dropWhile Char.isWhitespace).reverse⟩

/-- Go `strings.TrimSuffix`. -/
def goTrimSuffixStr (s suf : String) : String :=
  if isPreC suf.data.reverse s.data.reverse then ⟨s.data.take (s.data.length - suf.data.length)⟩
  else s

/-- Go `strings.TrimPrefix`. -/
def goTrimHead (s pre : String) : String :=
  if isPreC pre.data s.data then ⟨s.data.drop pre.data.length⟩ else s

/-- Go `strings.Join`. -/
def joinStrings (sep : String) : List String → String
  | [] => ""
  | [x] => x
  | x :: rest => x ++ sep ++ joinStrings sep rest

/-! ### A model of Go `strconv.ParseFloat`

Decimal syntax only (optional sign, digits with optional fractional part,
optional decimal exponent); the special forms `Inf`/`NaN`/hex floats are
not representable over `ℚ` and are treated as parse failures.  All inputs
that the repository feeds to `ParseFloat` are plain decimal strings. -/

/-- Value of a digit list read in base 10. -/
def digitsVal (l : List Char) : ℕ :=
  l.foldl (fun a c => a * 10 + (c.toNat - 48)) 0

/-- Parses an optional exponent suffix and applies it to `v`;
the whole remainder must be consumed. -/
def parseExpTail (v : ℚ) : List Char → Option ℚ
  | [] => some v
  | e :: rest =>
    if e = 'e' ∨ e = 'E' then
      let (sign, rest2) :=
        match rest with
        | '+' :: r => ((1 : ℤ), r)
        | '-' :: r => ((-1 : ℤ), r)
        | r => ((1 : ℤ), r)
      let (ds, rest3) := rest2.span Char.isDigit
      if ds = [] ∨ rest3 ≠ [] then none
      else
        let ex : ℤ := sign * (digitsVal ds : ℤ)
        if 0 ≤ ex then some (v * (10 : ℚ) ^ ex.toNat)
        else some (v / (10 : ℚ) ^ (-ex).toNat)
    else none

/-- Parses an unsigned decimal mantissa followed by an optional exponent. -/
def parseDec (l : List Char) : Option ℚ :=
  let (ip, rest) := l.span Char.isDigit
  match rest with
  | '.' :: rest2 =>
    let (fp, rest3) := rest2.span Char.isDigit
    if ip = [] ∧ fp = [] then none
    else parseExpTail ((digitsVal (ip ++ fp) : ℚ) / (10 : ℚ) ^ fp.length) rest3
  | _ =>
    if ip = [] then none
    else parseExpTail (digitsVal ip : ℚ) rest

/-- Model of Go `strconv.ParseFloat` (decimal syntax), exact over `ℚ`. -/
def goParseFloat (s : String) : Option ℚ :=
  match s.data with
  | '+' :: rest => parseDec rest
  | '-' :: rest => (parseDec rest).map Neg.neg
  | l => parseDec l

/-! ### `parseDuration` (source `parseDuration`) -/

/-- The fold inside `parseDuration`: walks the `:`-separated components
from the right, accumulating `(sec, mul)` with `mul` multiplied by 60 at
each step.  Unparsable components contribute 0. -/
def durParts : List String → ℚ × ℚ
  | [] => (0, 1)
  | p :: rest =>
    let (sec, mul) := durParts rest
    (sec + ((goParseFloat p).getD 0) * mul, mul * 60)

/-- Source `parseDuration`: strips one trailing `s`, splits on `:` and
sums the components with weights 1, 60, 3600, … from the right. -/
def parseDuration (s : String) : ℚ :=
  let t := goTrimSuffixStr s "s"
  (durParts (strSplit t ':')).1

/-- Weights 1, 60, 3600, … assigned right-to-left to `n` components. -/
def weightList (n : ℕ) : List ℚ :=
  (List.range n).reverse.map fun i => (60 : ℚ) ^ i

/-- Weighted sum of colon components as the claim words it: component `i`
of `n` (0-based from the left) weighs `60 ^ (n - 1 - i)`, an unparsable
component counts as 0. -/
def weightedSum (parts : List String) : ℚ :=
  (List.zipWith (fun p w => ((goParseFloat p).getD 0) * w) parts (weightList parts.length)).sum

/-- The duration mapping exactly as claim C10 words it: split on `:` and
weigh right-to-left, with no handling of a trailing `s` suffix. -/
def claimParseDuration (s : String) : ℚ :=
  weightedSum (strSplit s ':')

/-- Source `startEncoding` lines 706–712: the probed duration is replaced
by `end - start` only when both trim bounds are non-empty and the parsed
end exceeds the parsed start. -/
def effectiveDuration (probed : ℚ) (trimStart trimEnd : String) : ℚ :=
  if trimStart ≠ "" ∧ trimEnd ≠ "" then
    let s := parseDuration trimStart
    let e := parseDuration trimEnd
    if s < e then e - s else probed
  else probed

/-- The duration selection of claim C10, stated with the claim version of
`parseDuration`. -/
def claimEffectiveDuration (probed : ℚ) (trimStart trimEnd : String) : ℚ :=
  if trimStart ≠ "" ∧ trimEnd ≠ "" ∧ claimParseDuration trimStart < claimParseDuration trimEnd then
    claimParseDuration trimEnd - claimParseDuration trimStart
  else probed

/-! ### Data model (source lines 50–162) -/

/-- Hardware backend (`hwType`). -/
inductive HwType
  | cpu
  | nvidia
  | amd
  | intel
deriving DecidableEq

/-- Codec entry of the encoder table (`codecInfo`). -/
structure CodecInfo where
  name : String
  ffmpegLib : String
  ext : String
deriving DecidableEq

/-- Output mode (`outputMode`). -/
inductive OutputMode
  | video
  | gif
  | apng
  | avif
deriving DecidableEq

/-- One elementary stream of the probe output (`FFProbeOutput.Streams`). -/
structure StreamInfo where
  codecType : String
deriving DecidableEq

/-- Probe result (`FFProbeOutput`): stream list and the container duration
as the raw string of the JSON document. -/
structure FFProbeOutput where
  streams : List StreamInfo
  durationStr : String
deriving DecidableEq

/-- The encoder table (`encoderMap`). -/
def encoderMap : HwType → List CodecInfo
  | .cpu =>
    [⟨"AV1 (SVT-AV1, Balanced, Recommended)", "libsvtav1", ".webm"⟩,
     ⟨"AV1 (AOM, Reference/Slow)", "libaom-av1", ".webm"⟩,
     ⟨"AV1 (rav1e)", "librav1e", ".webm"⟩,
     ⟨"VP9 (Medium Quality)", "libvpx-vp9", ".webm"⟩,
     ⟨"H.264 (Fast)", "libx264", ".mp4"⟩,
     ⟨"H.265 (High Efficiency)", "libx265", ".mp4"⟩]
  | .nvidia =>
    [⟨"H.264 (NVENC)", "h264_nvenc", ".mp4"⟩,
     ⟨"HEVC (NVENC)", "hevc_nvenc", ".mp4"⟩,
     ⟨"AV1 (NVENC - RTX 40xx+)", "av1_nvenc", ".webm"⟩]
  | .amd =>
    [⟨"H.264 (AMF)", "h264_amf", ".mp4"⟩,
     ⟨"HEVC (AMF)", "hevc_amf", ".mp4"⟩,
     ⟨"AV1 (AMF - RX 7000+)", "av1_amf", ".webm"⟩]
  | .intel =>
    [⟨"H.264 (QSV)", "h264_qsv", ".mp4"⟩,
     ⟨"HEVC (QSV)", "hevc_qsv", ".mp4"⟩,
     ⟨"VP9 (QSV)", "vp9_qsv", ".webm"⟩,
     ⟨"AV1 (QSV - Arc GPU)", "av1_qsv", ".webm"⟩]

/-! ### Scale filter (source `buildScaleFilter`, lines 666–679) -/

/-- Structured result of `buildScaleFilter`.  The source emits ffmpeg
filter strings; the three constructors correspond one-to-one to its three
possible non-trivial outputs and are rendered by `renderScaleFilter`. -/
inductive ScaleFilter
  | noFilter
  | divide (d : ℚ)
  | explicitWH (spec : String)
deriving DecidableEq

/-- The separator fallback of `buildScaleFilter`: a string containing
`x` or `:` is passed through with `x` normalized to `:`. -/
def sepCase (t : String) : ScaleFilter :=
  if strContainsChar t 'x' ∨ strContainsChar t ':' then
    .explicitWH (strReplaceChar t 'x' ':')
  else .noFilter

/-- Source `buildScaleFilter`: trims whitespace; empty or `1` means no
filter; a parsable positive number `d` yields the divide-by-`d` filter;
otherwise a string with a separator is passed through; anything else
yields no filter. -/
def buildScaleFilter (input : String) : ScaleFilter :=
  let t := strTrim input
  if t = "" ∨ t = "1" then .noFilter
  else
    match goParseFloat t with
    | some d => if 0 < d then .divide d else sepCase t
    | none => sepCase t

/-- Semantics of the emitted ffmpeg expression `trunc((dim/d)/2)*2`
(ffmpeg `trunc` rounds toward zero): one output dimension. -/
def scaleDim (d : ℚ) (dim : ℕ) : ℤ :=
  ratTrunc ((dim / d) / 2) * 2

/-- Applies a scale filter to a source width and height; only the
divide form rescales dimensions. -/
def ScaleFilter.applyDims : ScaleFilter → ℕ → ℕ → Option (ℤ × ℤ)
  | .divide d, w, h => some (scaleDim d w, scaleDim d h)
  | _, _, _ => none

/-- Rendering of a rational in the divide filter.  Models Go `%g` output:
exact for the integral divisors exercised here; a non-integral value is
rendered as a fraction, a purely textual difference no property reads. -/
def ratRender (q : ℚ) : String :=
  if q.den = 1 then toString q.num else toString q.num ++ "/" ++ toString q.den

/-- String rendering of the structured scale filter, matching the
`fmt.Sprintf` outputs of the source. -/
def renderScaleFilter : ScaleFilter → String
  | .noFilter => ""
  | .divide d =>
    "scale=trunc((iw/" ++ ratRender d ++ ")/2)*2:trunc((ih/" ++ ratRender d ++ ")/2)*2"
  | .explicitWH s => "scale=" ++ s

/-! ### Preset tables and per-codec arguments (source lines 897–946 and
1008–1037) -/

def vp9Speeds : List String := ["8", "7", "6", "4", "1"]
def aomSpeeds : List String := ["8", "7", "6", "4", "3"]
def svtPresets : List String := ["12", "10", "8", "6", "4"]
def ravSpeeds : List String := ["10", "8", "6", "4", "2"]
def x264Presets : List String := ["ultrafast", "veryfast", "faster", "medium", "veryslow"]
def x265Presets : List String := ["ultrafast", "veryfast", "fast", "medium", "veryslow"]
def nvPresets : List String := ["p1", "p2", "p4", "p6", "p7"]
def amfPresets : List String := ["speed", "speed", "balanced", "quality", "quality"]
def amfAv1Presets : List String := ["speed", "balanced", "quality", "high_quality", "high_quality"]
def qsvPresets : List String := ["veryfast", "faster", "balanced", "slow", "veryslow"]

/-- The `extraArgs` built in the CPU branch of `startEncoding`:
pixel format, optional still-picture flag, per-codec speed/preset token,
and in quality (CRF) mode the codec-family CRF value. -/
def cpuExtraArgs (mode : OutputMode) (lib : String) (quality crfSlider : ℕ)
    (isCRFMode : Bool) : List String :=
  let base := ["-pix_fmt", "yuv420p"]
  let base := if mode = OutputMode.avif then base ++ ["-still-picture", "0"] else base
  if lib = "libvpx-vp9" then
    let a := base ++ ["-speed", (vp9Speeds.get? quality).getD "", "-row-mt", "1", "-tile-columns", "2"]
    if isCRFMode then a ++ ["-crf", toString (20 + ratTrunc ((crfSlider : ℚ) * 2.5)), "-b:v", "0"]
    else a
  else if lib = "libaom-av1" then
    let a := base ++ ["-cpu-used", (aomSpeeds.get? quality).getD "", "-row-mt", "1", "-tiles", "2x2"]
    if isCRFMode then a ++ ["-crf", toString (20 + crfSlider * 3)] else a
  else if lib = "libsvtav1" then
    let a := base ++ ["-preset", (svtPresets.get? quality).getD ""]
    if isCRFMode then a ++ ["-crf", toString (20 + crfSlider * 3)] else a
  else if lib = "librav1e" then
    let a := base ++ ["-speed", (ravSpeeds.get? quality).getD ""]
    if isCRFMode then a ++ ["-crf", toString (60 + crfSlider * 8)] else a
  else if lib = "libx264" then
    let a := base ++ ["-preset", (x264Presets.get? quality).getD ""]
    if isCRFMode then a ++ ["-crf", toString (18 + ratTrunc ((crfSlider : ℚ) * 1.5))] else a
  else if lib = "libx265" then
    let a := base ++ ["-preset", (x265Presets.get? quality).getD ""]
    if isCRFMode then a ++ ["-crf", toString (20 + ratTrunc ((crfSlider : ℚ) * 1.6))] else a
  else base ++ ["-preset", "medium"]

/-- The `extraArgs` built in the hardware branch of `startEncoding`. -/
def hwExtraArgs (mode : OutputMode) (lib : String) (quality crfSlider : ℕ)
    (isCRFMode : Bool) : List String :=
  let base := ["-pix_fmt", "yuv420p"]
  let base := if mode = OutputMode.avif then base ++ ["-still-picture", "0"] else base
  let hwQuality : ℤ := 19 + ratTrunc ((crfSlider : ℚ) * 1.5)
  if containsSub lib "nvenc" then
    let a := base ++ ["-preset", (nvPresets.get? quality).getD ""]
    if isCRFMode then a ++ ["-rc", "vbr", "-cq", toString hwQuality]
    else a ++ ["-rc", "vbr", "-cq", "0"]
  else if containsSub lib "amf" then
    let presets := if containsSub lib "av1" then amfAv1Presets else amfPresets
    let a := base ++ ["-quality", (presets.get? quality).getD ""]
    if isCRFMode then
      a ++ ["-rc", "cqp", "-qp_i", toString hwQuality, "-qp_p", toString hwQuality]
    else a
  else if containsSub lib "qsv" then
    let a := base ++ ["-preset", (qsvPresets.get? quality).getD ""]
    if isCRFMode then a ++ ["-global_quality", toString hwQuality] else a
  else base

/-- The preset-token array a (backend, codec-library) pair selects,
following the branch structure of the two argument builders; `none` for
a library the corresponding branch does not recognize. -/
def presetArrayFor (hw : HwType) (lib : String) : Option (List String) :=
  if hw = HwType.cpu then
    if lib = "libvpx-vp9" then some vp9Speeds
    else if lib = "libaom-av1" then some aomSpeeds
    else if lib = "libsvtav1" then some svtPresets
    else if lib = "librav1e" then some ravSpeeds
    else if lib = "libx264" then some x264Presets
    else if lib = "libx265" then some x265Presets
    else none
  else
    if containsSub lib "nvenc" then some nvPresets
    else if containsSub lib "amf" then
      some (if containsSub lib "av1" then amfAv1Presets else amfPresets)
    else if containsSub lib "qsv" then some qsvPresets
    else none

/-- The quality-mode constant-quality value a (backend, codec-library)
pair maps the CRF slider to, following the same branch structure. -/
def crfValueFor (hw : HwType) (lib : String) (crfSlider : ℕ) : Option ℤ :=
  if hw = HwType.cpu then
    if lib = "libvpx-vp9" then some (20 + ratTrunc ((crfSlider : ℚ) * 2.5))
    else if lib = "libaom-av1" then some ((20 : ℤ) + crfSlider * 3)
    else if lib = "libsvtav1" then some ((20 : ℤ) + crfSlider * 3)
    else if lib = "librav1e" then some ((60 : ℤ) + crfSlider * 8)
    else if lib = "libx264" then some (18 + ratTrunc ((crfSlider : ℚ) * 1.5))
    else if lib = "libx265" then some (20 + ratTrunc ((crfSlider : ℚ) * 1.6))
    else none
  else
    if containsSub lib "nvenc" ∨ containsSub lib "amf" ∨ containsSub lib "qsv" then
      some (19 + ratTrunc ((crfSlider : ℚ) * 1.5))
    else none

/-! ### Bitrate resolver (source lines 859–874) -/

/-- The size-target bitrate computation of `startEncoding`, exact over
`ℚ`: total bit budget, minus the audio allocation, times the 0.95 safety
margin, floored at `50 * 1024` bit/s, and converted to integer kbit/s by
Go `int` truncation. -/
def computeVideoKBit (targetMB duration : ℚ) (hasAudio : Bool) : ℤ :=
  let targetBits := targetMB * 8388608
  let audioRate : ℚ := if hasAudio then 128 * 1024 else 0
  let totalRate := targetBits / duration
  let videoRate := (totalRate - audioRate) * 0.95
  let videoRate := if videoRate < 50 * 1024 then 50 * 1024 else videoRate
  ratTrunc (videoRate / 1024)

/-! ### Progress monitor (source `runFFmpeg`, lines 1094–1126) -/

/-- Handling of one line of the ffmpeg progress stream: a line whose
`=`-split has exactly two fields with key `out_time_us` publishes a
fraction; every other line publishes nothing. -/
def processProgressLine (line : String) (totalDuration : ℚ) : Option ℚ :=
  match strSplit line '=' with
  | [k, v] =>
    if k = "out_time_us" then
      let us := (goParseFloat v).getD 0
      let cur := us / 1000000
      let pct := if 0 < totalDuration then cur / totalDuration else 0
      some (if 1 < pct then 1 else pct)
    else none
  | _ => none

/-! ### Probe (source `probeFile`, lines 1172–1180) -/

/-- The zero value of `FFProbeOutput`, what Go `json.Unmarshal` leaves in
place when the document does not parse. -/
def zeroProbeOutput : FFProbeOutput := ⟨[], ""⟩

/-- Source `probeFile`.  `execResult` is the outcome of running the
external inspector (`none` = nonzero exit, `some out` = its standard
output); `unmarshal` is the JSON decoder (`none` = unparsable document).
The source ignores the `json.Unmarshal` error, so an unparsable document
yields the zero value, not an error. -/
def probeFile (execResult : Option String)
    (unmarshal : String → Option FFProbeOutput) : Option FFProbeOutput :=
  match execResult with
  | none => none
  | some out => some ((unmarshal out).getD zeroProbeOutput)

/-! ### Finalization (source `finishWork`, lines 1067–1075) -/

/-- Outcome message of a job (`workDoneMsg`); `err = none` is success. -/
structure WorkDoneMsg where
  outputFile : String
  finalSize : String
  err : Option String
deriving DecidableEq

/-- Two-digit zero padding for the size rendering. -/
def pad2 (n : ℕ) : String :=
  if n < 10 then "0" ++ toString n else toString n

/-- Rendering of a byte count as `%.2f MB` (round to nearest, exact over
`ℚ`; the tie-breaking of the float formatter is not exercised). -/
def mbString (bytes : ℕ) : String :=
  let cents := (⌊(bytes : ℚ) / 1048576 * 100 + 1 / 2⌋).toNat
  toString (cents / 100) ++ "." ++ pad2 (cents % 100) ++ " MB"

/-- Source `finishWork`: stats the output artifact; a failing stat yields
the size string `Unknown`; the returned message always has a nil error. -/
def finishWork (statSize : String → Option ℕ) (path : String) : WorkDoneMsg :=
  match statSize path with
  | some sz => ⟨path, mbString sz, none⟩
  | none => ⟨path, "Unknown", none⟩

/-- The failure message `workDoneMsg{err: err}` returned when a stage
fails; the payload records the failing stage. -/
def stageErr (stage : String) : WorkDoneMsg := ⟨"", "", some stage⟩

/-! ### Effect trace of the orchestrator

`startEncoding` is modelled as a function from the job configuration and
an environment oracle to the ordered list of effects it performs:
subprocess runs (with stage label and full argument vector) and removals
of temporary files.  The temporary files are a dedicated type so that
the per-run palette image and the two-pass statistics logs are tracked
precisely. -/

/-- The temporary files a run can touch, named with the per-run
timestamp suffix. -/
inductive TempFile
  | palette (ts : ℕ)
  | passLog0 (ts : ℕ)
  | passLogMain (ts : ℕ)
  | passLogTree (ts : ℕ)
deriving DecidableEq

/-- Path rendering of a temporary file, as the source builds it with
`filepath.Join(os.TempDir(), ...)` and the `-0.log`/`.log`/`.mbtree`
suffixes of the cleanup calls. -/
def tempPath (tmpDir : String) : TempFile → String
  | .palette ts => tmpDir ++ "/palette_" ++ toString ts ++ ".png"
  | .passLog0 ts => tmpDir ++ "/pass_" ++ toString ts ++ "-0.log"
  | .passLogMain ts => tmpDir ++ "/pass_" ++ toString ts ++ ".log"
  | .passLogTree ts => tmpDir ++ "/pass_" ++ toString ts ++ "-0.log.mbtree"

/-- One effect of the pipeline.  Modelled from the spec: the `creates`
field of a run records which temporary artifacts that external stage
writes — the palette stage writes the palette image, the analysis pass
writes the two-pass statistics log; no other stage writes a tracked
temporary file. -/
inductive Event
  | run (stage : String) (args : List String) (creates : List TempFile)
  | remove (f : TempFile)
deriving DecidableEq

/-- Temporary files an event creates. -/
def eventCreates : Event → List TempFile
  | .run _ _ cs => cs
  | .remove _ => []

/-- Temporary files an event removes. -/
def eventRemoves : Event → List TempFile
  | .run _ _ _ => []
  | .remove f => [f]

/-- All temporary files created along a trace. -/
def createdFiles (evs : List Event) : List TempFile :=
  evs.foldr (fun e acc => eventCreates e ++ acc) []

/-- All temporary files removed along a trace. -/
def removedFiles (evs : List Event) : List TempFile :=
  evs.foldr (fun e acc => eventRemoves e ++ acc) []

/-- Temporary files still on disk after the trace: created and never
removed. -/
def leftoverFiles (evs : List Event) : List TempFile :=
  (createdFiles evs).filter fun f => decide (f ∉ removedFiles evs)

/-- The encode subprocesses of a trace: every run except the palette
generation stage. -/
def encodeRuns (evs : List Event) : List Event :=
  evs.filter fun e =>
    match e with
    | .run st _ _ => st != "GIF Palette"
    | .remove _ => false

/-- Stage labels of the runs of a trace, in order. -/
def stageNames (evs : List Event) : List String :=
  evs.filterMap fun e =>
    match e with
    | .run st _ _ => some st
    | .remove _ => none

/-- The argument following the first occurrence of `flag` in an argument
vector. -/
def argAfter (flag : String) : List String → Option String
  | a :: b :: rest => if a = flag then some b else argAfter flag (b :: rest)
  | _ => none

/-! ### Shared per-job computations of `startEncoding`
(source lines 704–763) -/

/-- Job configuration handed to `startEncoding` (the parameters of the
source function). -/
structure JobConfig where
  inputFile : String
  targetMB : ℚ
  resInput : String
  fpsInput : String
  trimStart : String
  trimEnd : String
  customOut : String
  hw : HwType
  codec : CodecInfo
  mode : OutputMode
  quality : ℕ
  crfSlider : ℕ

/-- Environment oracle: outcome of the probe subprocess and its JSON
decoding, the exit status of each successive ffmpeg invocation, the
filesystem stat, the per-run timestamp and the temp directory. -/
structure Env where
  ffprobeExec : Option String
  unmarshal : String → Option FFProbeOutput
  ffOk : ℕ → Bool
  statSize : String → Option ℕ
  ts : ℕ
  tmpDir : String

/-- Simplified model of `filepath` path splitting over `/`; only the
default output file name depends on it. -/
def pathParts (s : String) : List (List Char) :=
  splitOnChar '/' s.data

/-- Go `filepath.Base` (simplified: last `/`-separated component). -/
def pathBase (s : String) : String :=
  ⟨((pathParts s).getLast?).getD []⟩

/-- Go `filepath.Dir` (simplified: everything before the last `/`,
or `.` when there is none). -/
def pathDir (s : String) : String :=
  match (pathParts s).dropLast with
  | [] => "."
  | l => joinStrings "/" (l.map String.mk)

/-- Go `filepath.Ext`: the suffix of the base starting at its last dot,
empty when the base has no dot. -/
def pathExt (s : String) : String :=
  let rev := (pathBase s).data.reverse
  let keep := rev.takeWhile fun c => c ≠ '.'
  if keep.length = rev.length then "" else ⟨('.' :: keep).reverse⟩

/-- Go `filepath.Join` of a directory and a file name (simplified;
joining with `.` cleans to the bare name). -/
def pathJoin (d f : String) : String :=
  if d = "." then f else d ++ "/" ++ f

/-- Probed container duration: `strconv.ParseFloat` of the duration
field, with the ignored error leaving 0. -/
def probedDuration (info : FFProbeOutput) : ℚ :=
  (goParseFloat info.durationStr).getD 0

/-- The duration `startEncoding` works with: probed duration, possibly
replaced by the trim range. -/
def durationOf (cfg : JobConfig) (info : FFProbeOutput) : ℚ :=
  effectiveDuration (probedDuration info) cfg.trimStart cfg.trimEnd

/-- Output extension: the codec extension, overridden for APNG and AVIF
modes. -/
def outputExtOf (cfg : JobConfig) : String :=
  match cfg.mode with
  | .apng => ".png"
  | .avif => ".avif"
  | _ => cfg.codec.ext

/-- Output path and format flags: a custom output path comes with an
explicit `-f` flag, the default path is input-adjacent with a
`_compressed` suffix. -/
def outputTargetOf (cfg : JobConfig) : String × List String :=
  if cfg.customOut ≠ "" then
    let fmtFlag :=
      match cfg.mode with
      | .avif => "avif"
      | .apng => "apng"
      | _ => goTrimHead (outputExtOf cfg) "."
    (cfg.customOut, ["-f", fmtFlag])
  else
    (pathJoin (pathDir cfg.inputFile)
      (goTrimSuffixStr (pathBase cfg.inputFile) (pathExt cfg.inputFile)
        ++ "_compressed" ++ outputExtOf cfg), [])

/-- Resolved output file path. -/
def outputFileOf (cfg : JobConfig) : String := (outputTargetOf cfg).1

/-- Format arguments, with `-movflags +faststart` appended for mp4. -/
def formatArgsOf (cfg : JobConfig) : List String :=
  let fa := (outputTargetOf cfg).2
  if cfg.codec.ext = ".mp4" then fa ++ ["-movflags", "+faststart"] else fa

/-- The video filter chain: optional scale filter, always `mpdecimate`,
optional fps filter. -/
def vfFiltersOf (cfg : JobConfig) : List String :=
  let sf := renderScaleFilter (buildScaleFilter cfg.resInput)
  (if sf ≠ "" then [sf] else []) ++ ["mpdecimate"]
    ++ (if cfg.fpsInput ≠ "" then ["fps=" ++ cfg.fpsInput] else [])

/-- The joined `-vf` string. -/
def vfStringOf (cfg : JobConfig) : String :=
  joinStrings "," (vfFiltersOf cfg)

/-- Trim arguments, present only when both bounds are non-empty. -/
def trimArgsOf (cfg : JobConfig) : List String :=
  if cfg.trimStart ≠ "" ∧ cfg.trimEnd ≠ "" then
    ["-ss", cfg.trimStart, "-to", cfg.trimEnd]
  else []

/-- Audio presence per the probe streams. -/
def hasAudioOf (info : FFProbeOutput) : Bool :=
  info.streams.any fun s => s.codecType == "audio"

/-- Audio arguments: aac for mp4, opus otherwise, `-an` without audio or
in AVIF mode. -/
def audioArgsOf (cfg : JobConfig) (hasAudio : Bool) : List String :=
  if hasAudio ∧ cfg.mode ≠ OutputMode.avif then
    if cfg.codec.ext = ".mp4" then ["-c:a", "aac", "-b:a", "128k"]
    else ["-c:a", "libopus", "-b:a", "128k"]
  else ["-an"]

/-- The `-vf` arguments when the filter string is non-empty. -/
def filterArgsOf (cfg : JobConfig) : List String :=
  if vfStringOf cfg ≠ "" then ["-vf", vfStringOf cfg] else []

/-- The `-passlogfile` base path. -/
def passLogBase (env : Env) : String :=
  env.tmpDir ++ "/pass_" ++ toString env.ts

/-! ### The pipeline branches (source lines 765–1064) -/

/-- GIF branch: palette generation, then the palette-consuming encode;
the deferred `os.Remove(paletteFile)` runs on every exit path. -/
def gifBranch (cfg : JobConfig) (env : Env) : List Event × WorkDoneMsg :=
  let gifVfStr := vfStringOf cfg
  let paletteFile := tempPath env.tmpDir (.palette env.ts)
  let palFilter := (if gifVfStr ≠ "" then gifVfStr ++ "," else "") ++ "palettegen"
  let palArgs := ["-y"] ++ trimArgsOf cfg ++ ["-i", cfg.inputFile, "-vf", palFilter, paletteFile]
  let palEv := Event.run "GIF Palette" palArgs [.palette env.ts]
  if env.ffOk 0 then
    let filterComplex :=
      if gifVfStr = "" then "[0:v]fifo[x];[x][1:v]paletteuse"
      else "[0:v]" ++ gifVfStr ++ "[x];[x][1:v]paletteuse"
    let encArgs := ["-y"] ++ trimArgsOf cfg
      ++ ["-i", cfg.inputFile, "-i", paletteFile, "-lavfi", filterComplex]
      ++ formatArgsOf cfg ++ [outputFileOf cfg]
    let encEv := Event.run "GIF Encode" encArgs []
    if env.ffOk 1 then
      ([palEv, encEv, .remove (.palette env.ts)], finishWork env.statSize (outputFileOf cfg))
    else ([palEv, encEv, .remove (.palette env.ts)], stageErr "GIF Encode")
  else ([palEv, .remove (.palette env.ts)], stageErr "GIF Palette")

/-- APNG branch: one encode subprocess. -/
def apngBranch (cfg : JobConfig) (env : Env) : List Event × WorkDoneMsg :=
  let encArgs := ["-y"] ++ trimArgsOf cfg ++ ["-i", cfg.inputFile]
    ++ (if vfStringOf cfg ≠ "" then ["-vf", vfStringOf cfg] else [])
    ++ ["-c:v", "apng", "-plays", "0"] ++ formatArgsOf cfg ++ [outputFileOf cfg]
  let encEv := Event.run "APNG Encode" encArgs []
  if env.ffOk 0 then ([encEv], finishWork env.statSize (outputFileOf cfg))
  else ([encEv], stageErr "APNG Encode")

/-- CPU branch, quality (CRF) mode: a single encode subprocess. -/
def cpuCrfPlan (cfg : JobConfig) (env : Env) (hasAudio : Bool) : List Event × WorkDoneMsg :=
  let extraArgs := cpuExtraArgs cfg.mode cfg.codec.ffmpegLib cfg.quality cfg.crfSlider true
  let args := ["-y"] ++ trimArgsOf cfg ++ ["-i", cfg.inputFile, "-c:v", cfg.codec.ffmpegLib]
    ++ extraArgs ++ filterArgsOf cfg ++ audioArgsOf cfg hasAudio
    ++ formatArgsOf cfg ++ [outputFileOf cfg]
  let ev := Event.run "Encoding (CRF)" args []
  if env.ffOk 0 then ([ev], finishWork env.statSize (outputFileOf cfg))
  else ([ev], stageErr "Encoding (CRF)")

/-- Argument vector of the analysis pass (`p1` in the source): bitrate,
pass number 1, the shared `-passlogfile`, `-an`, and a null output. -/
def passArgs1 (cfg : JobConfig) (env : Env) (kb : String) : List String :=
  ["-y"] ++ trimArgsOf cfg
    ++ ["-i", cfg.inputFile, "-c:v", cfg.codec.ffmpegLib, "-b:v", kb,
        "-pass", "1", "-passlogfile", passLogBase env, "-an"]
    ++ filterArgsOf cfg
    ++ cpuExtraArgs cfg.mode cfg.codec.ffmpegLib cfg.quality cfg.crfSlider false
    ++ ["-f", "null", "/dev/null"]

/-- Argument vector of the encoding pass (`p2` in the source): the same
bitrate and `-passlogfile`, pass number 2, audio/format args and the
output file. -/
def passArgs2 (cfg : JobConfig) (env : Env) (kb : String) (hasAudio : Bool) : List String :=
  ["-y"] ++ trimArgsOf cfg
    ++ ["-i", cfg.inputFile, "-c:v", cfg.codec.ffmpegLib, "-b:v", kb,
        "-pass", "2", "-passlogfile", passLogBase env]
    ++ filterArgsOf cfg
    ++ cpuExtraArgs cfg.mode cfg.codec.ffmpegLib cfg.quality cfg.crfSlider false
    ++ audioArgsOf cfg hasAudio
    ++ formatArgsOf cfg ++ [outputFileOf cfg]

/-- CPU branch, explicit size target: two passes sharing one bitrate and
one `-passlogfile`; the statistics logs are removed only after pass 2
succeeds. -/
def cpuTwoPassPlan (cfg : JobConfig) (env : Env) (hasAudio : Bool) (duration : ℚ) :
    List Event × WorkDoneMsg :=
  let videoKBit := computeVideoKBit cfg.targetMB duration hasAudio
  let kb := toString videoKBit ++ "k"
  let ev1 := Event.run "Pass 1 (Analysis)" (passArgs1 cfg env kb) [.passLog0 env.ts]
  if env.ffOk 0 then
    let ev2 := Event.run "Pass 2 (Encoding)" (passArgs2 cfg env kb hasAudio) []
    if env.ffOk 1 then
      ([ev1, ev2, .remove (.passLog0 env.ts), .remove (.passLogMain env.ts),
        .remove (.passLogTree env.ts)],
       finishWork env.statSize (outputFileOf cfg))
    else ([ev1, ev2], stageErr "Pass 2 (Encoding)")
  else ([ev1], stageErr "Pass 1 (Analysis)")

/-- Hardware branch: one encode subprocess, with rate-control arguments
added in size mode. -/
def hwPlan (cfg : JobConfig) (env : Env) (hasAudio : Bool) (duration : ℚ) :
    List Event × WorkDoneMsg :=
  let isCRFMode : Bool := decide (cfg.targetMB ≤ 0)
  let videoKBit : ℤ :=
    if isCRFMode then 0 else computeVideoKBit cfg.targetMB duration hasAudio
  let extraArgs := hwExtraArgs cfg.mode cfg.codec.ffmpegLib cfg.quality cfg.crfSlider isCRFMode
  let cmdArgs := ["-y", "-hwaccel", "auto"] ++ trimArgsOf cfg
    ++ ["-i", cfg.inputFile, "-c:v", cfg.codec.ffmpegLib]
    ++ (if isCRFMode then []
        else ["-b:v", toString videoKBit ++ "k", "-maxrate", toString videoKBit ++ "k",
              "-bufsize", toString (videoKBit * 2) ++ "k"])
    ++ filterArgsOf cfg ++ extraArgs ++ audioArgsOf cfg hasAudio
    ++ formatArgsOf cfg ++ [outputFileOf cfg]
  let ev := Event.run "GPU Encoding" cmdArgs []
  if env.ffOk 0 then ([ev], finishWork env.statSize (outputFileOf cfg))
  else ([ev], stageErr "GPU Encoding")

/-- Video/AVIF path of `startEncoding`: dispatch between the CPU CRF,
CPU two-pass and hardware branches. -/
def videoBranch (cfg : JobConfig) (env : Env) (info : FFProbeOutput) :
    List Event × WorkDoneMsg :=
  let duration := durationOf cfg info
  let hasAudio := hasAudioOf info
  if cfg.hw = HwType.cpu then
    if cfg.targetMB ≤ 0 then cpuCrfPlan cfg env hasAudio
    else cpuTwoPassPlan cfg env hasAudio duration
  else hwPlan cfg env hasAudio duration

/-- Source `startEncoding` as an effect trace: probe first (a probe error
aborts before any subprocess), then the mode dispatch. -/
def startEncoding (cfg : JobConfig) (env : Env) : List Event × WorkDoneMsg :=
  match probeFile env.ffprobeExec env.unmarshal with
  | none => ([], stageErr "ffprobe")
  | some info =>
    match cfg.mode with
    | .gif => gifBranch cfg env
    | .apng => apngBranch cfg env
    | _ => videoBranch cfg env info

/-! ### Concrete fixtures used by closed witness and counterexample
theorems -/

/-- A JSON decoder that fails on every document (models `json.Unmarshal`
on an unparsable document). -/
def failUnmarshal : String → Option FFProbeOutput := fun _ => none

/-- Probe output with one audio stream and a 60 s duration. -/
def probeC2 : FFProbeOutput := ⟨[⟨"audio"⟩], "60"⟩

/-- CPU size-target video job. -/
def cfgC2 : JobConfig :=
  ⟨"in.mp4", 10, "", "", "", "", "", HwType.cpu,
   ⟨"H.264 (Fast)", "libx264", ".mp4"⟩, OutputMode.video, 2, 5⟩

/-- Environment where every subprocess succeeds. -/
def envC2 : Env :=
  ⟨some "json", fun _ => some probeC2, fun _ => true, fun _ => some 1048576, 0, "/tmp"⟩

/-- Probe output whose container duration parses to 0. -/
def probeC3 : FFProbeOutput := ⟨[], "0"⟩

/-- CPU size-target job fed a zero-duration probe result. -/
def cfgC3 : JobConfig :=
  ⟨"clip.mp4", 10, "", "", "", "", "", HwType.cpu,
   ⟨"H.264 (Fast)", "libx264", ".mp4"⟩, OutputMode.video, 2, 5⟩

/-- Environment delivering the zero-duration probe, all stages succeed. -/
def envC3 : Env :=
  ⟨some "json", fun _ => some probeC3, fun _ => true, fun _ => some 1048576, 0, "/tmp"⟩

/-- Probe output with a 60 s duration and no audio. -/
def probeC4 : FFProbeOutput := ⟨[], "60"⟩

/-- CPU size-target job for the cleanup counterexample. -/
def cfgC4 : JobConfig :=
  ⟨"movie.mkv", 10, "", "", "", "", "", HwType.cpu,
   ⟨"VP9 (Medium Quality)", "libvpx-vp9", ".webm"⟩, OutputMode.video, 2, 5⟩

/-- Environment where pass 1 succeeds and pass 2 fails. -/
def envC4 : Env :=
  ⟨some "json", fun _ => some probeC4, fun n => n == 0, fun _ => some 1048576, 0, "/tmp"⟩

/-- Environment for the same job where every stage succeeds. -/
def envC4ok : Env :=
  ⟨some "json", fun _ => some probeC4, fun _ => true, fun _ => some 1048576, 0, "/tmp"⟩

/-- Environment whose probe subprocess exits nonzero. -/
def envC7 : Env :=
  ⟨none, fun _ => some probeC4, fun _ => true, fun _ => some 1048576, 0, "/tmp"⟩

/-- Job used with the failing probe. -/
def cfgC7 : JobConfig :=
  ⟨"in.webm", 0, "", "", "", "", "", HwType.cpu,
   ⟨"VP9 (Medium Quality)", "libvpx-vp9", ".webm"⟩, OutputMode.video, 2, 5⟩

/-- A stat oracle that fails on every path. -/
def noStatC8 : String → Option ℕ := fun _ => none

/-! ## Theorems -/

/-! ### Generic helper lemmas -/

theorem durParts_snd (l : List String) : (durParts l).2 = 60 ^ l.length := by
  induction l with
  | nil => simp [durParts]
  | cons p rest ih => simp [durParts, ih, pow_succ, mul_comm]

theorem weightList_succ (n : ℕ) :
    weightList (n + 1) = (60 : ℚ) ^ n :: weightList n := by
  simp [weightList, List.range_succ]

theorem weightedSum_cons (p : String) (rest : List String) :
    weightedSum (p :: rest) =
      ((goParseFloat p).getD 0) * (60 : ℚ) ^ rest.length + weightedSum rest := by
  simp [weightedSum, weightList_succ, List.zipWith]

theorem durParts_fst (l : List String) : (durParts l).1 = weightedSum l := by
  induction l with
  | nil => simp [durParts, weightedSum, weightList]
  | cons p rest ih =>
    simp [durParts, weightedSum_cons, ih, durParts_snd]
    ring

theorem argAfter_congr (flag v : String) :
    ∀ (pre s1 s2 : List String),
      argAfter flag (pre ++ flag :: v :: s1) = argAfter flag (pre ++ flag :: v :: s2) := by
  intro pre
  induction pre with
  | nil => intro s1 s2; simp [argAfter]
  | cons a t ih =>
    intro s1 s2
    cases t with
    | nil =>
      simp only [List.cons_append, List.nil_append, argAfter]
      split
      · rfl
      · rfl
    | cons b t2 =>
      simp only [List.cons_append, argAfter]
      split
      · rfl
      · exact ih s1 s2

theorem argAfter_isSome (flag v : String) :
    ∀ (pre s : List String), (argAfter flag (pre ++ flag :: v :: s)).isSome := by
  intro pre
  induction pre with
  | nil => intro s; simp [argAfter]
  | cons a t ih =>
    intro s
    cases t with
    | nil =>
      simp only [List.cons_append, List.nil_append, argAfter]
      split
      · rfl
      · simp [argAfter]
    | cons b t2 =>
      simp only [List.cons_append, argAfter]
      split
      · rfl
      · exact ih s

/-! ### C1 -/

/-- C1: for every positive size target and duration and any audio flag,
the bitrate the resolver computes equals
`max(50, (size_MB*8388608/duration - (hasAudio ? 128*1024 : 0))*0.95/1024)`
truncated to an integer. -/
theorem c1_resolver_bitrate (targetMB duration : ℚ) (hasAudio : Bool)
    (hMB : 0 < targetMB) (hDur : 0 < duration) :
    computeVideoKBit targetMB duration hasAudio =
      ratTrunc (max 50 ((targetMB * 8388608 / duration -
        (if hasAudio then 128 * 1024 else 0)) * 0.95 / 1024)) := by
  simp only [computeVideoKBit]
  set A := (targetMB * 8388608 / duration -
    (if hasAudio then (128 * 1024 : ℚ) else 0)) * 0.95 with hA
  by_cases h : A < 50 * 1024
  · have h2 : A / 1024 < 50 := (div_lt_iff₀ (by norm_num)).mpr h
    rw [if_pos h, max_eq_left h2.le]
    norm_num
  · push_neg at h
    have h2 : (50 : ℚ) ≤ A / 1024 := (le_div_iff₀ (by norm_num)).mpr (by linarith)
    rw [if_neg (not_lt.mpr h), max_eq_right h2]

/-- Witness for C1 at size 10 MB, duration 60 s, with audio. -/
theorem c1_resolver_bitrate_witness :
    (0 : ℚ) < 10 ∧ (0 : ℚ) < 60 ∧
      computeVideoKBit 10 60 true =
        ratTrunc (max 50 ((10 * 8388608 / 60 -
          (if true then 128 * 1024 else 0)) * 0.95 / 1024)) :=
  ⟨by norm_num, by norm_num, c1_resolver_bitrate 10 60 true (by norm_num) (by norm_num)⟩

/-! ### C5 -/

/-- C5: the scale-filter builder maps the trimmed resolution spec as the
claim states: empty or `1` gives no filter; a parsed positive number `d`
gives the divide filter whose semantics per axis is
`floor(dim/d/2)*2` (`2` on 1280×720 gives 640×360, `3` on 101×101 gives
32 per axis); a non-numeric string with an `x` or `:` separator is
passed through with `x` normalized to `:`; anything else gives no
filter. -/
theorem c5_scale_filter (s : String) :
    (strTrim s = "" ∨ strTrim s = "1" → buildScaleFilter s = .noFilter) ∧
    (∀ d, ¬(strTrim s = "" ∨ strTrim s = "1") → goParseFloat (strTrim s) = some d →
      0 < d → buildScaleFilter s = .divide d) ∧
    (¬(strTrim s = "" ∨ strTrim s = "1") → goParseFloat (strTrim s) = none →
      buildScaleFilter s =
        (if strContainsChar (strTrim s) 'x' ∨ strContainsChar (strTrim s) ':' then
          ScaleFilter.explicitWH (strReplaceChar (strTrim s) 'x' ':')
        else ScaleFilter.noFilter)) ∧
    (∀ d, ¬(strTrim s = "" ∨ strTrim s = "1") → goParseFloat (strTrim s) = some d →
      ¬ 0 < d → ¬(strContainsChar (strTrim s) 'x' ∨ strContainsChar (strTrim s) ':') →
      buildScaleFilter s = .noFilter) ∧
    (buildScaleFilter "2").applyDims 1280 720 = some (640, 360) ∧
    (buildScaleFilter "3").applyDims 101 101 = some (32, 32) := by
  refine ⟨?_, ?_, ?_, ?_, ?_, ?_⟩
  · intro h
    rw [buildScaleFilter, if_pos h]
  · intro d hne hp hd
    rw [buildScaleFilter, if_neg hne, hp]
    simp [hd]
  · intro hne hp
    rw [buildScaleFilter, if_neg hne, hp, sepCase]
  · intro d hne hp hd hsep
    rw [buildScaleFilter, if_neg hne, hp]
    simp only [if_neg hd]
    rw [sepCase, if_neg hsep]
  · have hb : buildScaleFilter "2" = .divide 2 := by decide
    rw [hb]
    simp only [ScaleFilter.applyDims, Option.some.injEq, Prod.mk.injEq]
    constructor <;> norm_num [scaleDim, ratTrunc]
  · have hb : buildScaleFilter "3" = .divide 3 := by decide
    rw [hb]
    simp only [ScaleFilter.applyDims, Option.some.injEq, Prod.mk.injEq]
    constructor <;> norm_num [scaleDim, ratTrunc, Int.floor_eq_iff]

/-- Witness for C5 at the input " 2 ". -/
theorem c5_scale_filter_witness :
    buildScaleFilter " 2 " = ScaleFilter.divide 2 :=
  (c5_scale_filter " 2 ").2.1 2 (by decide) (by decide) (by decide)

/-! ### C6 (corrected) -/

/-- C6 counterexample: a line whose reported elapsed value is negative
publishes a negative fraction, so the published fraction is not clamped
to `[0,1]` as the claim states. -/
theorem c6_progress_counterexample :
    processProgressLine "out_time_us=-1000000" 10 = some (-1 / 10) ∧
      (-1 / 10 : ℚ) < 0 := by
  constructor
  · have h1 : strSplit "out_time_us=-1000000" '=' = ["out_time_us", "-1000000"] := by decide
    have h2 : goParseFloat "-1000000" = some (-1000000) := by decide
    rw [processProgressLine, h1]
    norm_num [h2]
  · norm_num

/-- C6 (amended): a line carrying `out_time_us` publishes a fraction that
never exceeds 1 and that equals `elapsed/total` clamped to `[0,1]`
whenever the reported elapsed value is nonnegative (for any total); a
negative elapsed value publishes a negative fraction; lines whose
`=`-split does not have exactly two fields with key `out_time_us`
publish nothing. -/
theorem c6_progress_fraction (line : String) (total : ℚ) :
    (∀ p, processProgressLine line total = some p →
      p ≤ 1 ∧ ∃ v, strSplit line '=' = ["out_time_us", v] ∧
        (0 ≤ (goParseFloat v).getD 0 →
          p = min 1 (max 0 (((goParseFloat v).getD 0) / 1000000 / total)))) ∧
    (∀ k v rest, strSplit line '=' = k :: v :: rest →
      (rest ≠ [] ∨ k ≠ "out_time_us") → processProgressLine line total = none) ∧
    (∀ x, strSplit line '=' = [x] → processProgressLine line total = none) := by
  refine ⟨?_, ?_, ?_⟩
  · intro p hp
    rw [processProgressLine] at hp
    rcases hs : strSplit line '=' with _ | ⟨k, _ | ⟨v, _ | rest⟩⟩ <;>
      rw [hs] at hp <;> dsimp only at hp
    · simp at hp
    · simp at hp
    · by_cases hk : k = "out_time_us"
      · rw [if_pos hk] at hp
        simp only [Option.some.injEq] at hp
        subst hp
        set us : ℚ := (goParseFloat v).getD 0 with hus
        constructor
        · by_cases h1 : 1 < (if 0 < total then us / 1000000 / total else 0)
          · rw [if_pos h1]
          · rw [if_neg h1]
            exact le_of_not_lt h1
        · refine ⟨v, by rw [hk], ?_⟩
          intro h0
          by_cases ht : 0 < total
          · have hnn : 0 ≤ us / 1000000 / total :=
              div_nonneg (div_nonneg h0 (by norm_num)) ht.le
            rw [if_pos ht, max_eq_right hnn]
            by_cases h1 : 1 < us / 1000000 / total
            · rw [if_pos h1, min_eq_left h1.le]
            · rw [if_neg h1, min_eq_right (le_of_not_lt h1)]
          · have hdv : us / 1000000 / total ≤ 0 := by
              rcases lt_or_eq_of_le (le_of_not_lt ht) with hlt | heq
              · exact div_nonpos_of_nonneg_of_nonpos
                  (div_nonneg h0 (by norm_num)) hlt.le
              · rw [heq, div_zero]
            rw [if_neg ht, max_eq_left hdv, min_eq_right (by norm_num)]
            simp
      · rw [if_neg hk] at hp
        simp at hp
    · simp at hp
  · intro k v rest hs hne
    rw [processProgressLine, hs]
    rcases hne with h | h
    · cases rest with
      | nil => exact absurd rfl h
      | cons a t => rfl
    · cases rest with
      | nil => simp [if_neg h]
      | cons a t => rfl
  · intro x hs
    rw [processProgressLine, hs]

/-- Witness for C6 (amended) on the line `out_time_us=500000` with a
1 second total. -/
theorem c6_progress_fraction_witness :
    (1 / 2 : ℚ) ≤ 1 ∧ ∃ v, strSplit "out_time_us=500000" '=' = ["out_time_us", v] ∧
      (0 ≤ (goParseFloat v).getD 0 →
        (1 / 2 : ℚ) = min 1 (max 0 (((goParseFloat v).getD 0) / 1000000 / 1))) := by
  have h : processProgressLine "out_time_us=500000" 1 = some (1 / 2) := by
    have h1 : strSplit "out_time_us=500000" '=' = ["out_time_us", "500000"] := by decide
    have h2 : goParseFloat "500000" = some 500000 := by decide
    rw [processProgressLine, h1]
    norm_num [h2]
  exact (c6_progress_fraction "out_time_us=500000" 1).1 (1 / 2) h

/-! ### C7 (corrected) -/

/-- C7 counterexample: the probe accepts an output document the JSON
decoder cannot parse, returning the zero value rather than an error. -/
theorem c7_probe_counterexample :
    probeFile (some "not a json document") failUnmarshal = some zeroProbeOutput := rfl

/-- C7 (amended): the probe returns an error exactly when the external
inspector exits nonzero; an unparsable document is silently accepted as
the zero-valued probe result; on a probe error the pipeline fails with
no subprocess launched. -/
theorem c7_probe_error :
    (∀ (res : Option String) (um : String → Option FFProbeOutput),
      probeFile res um = none ↔ res = none) ∧
    (∀ (out : String) (um : String → Option FFProbeOutput), um out = none →
      probeFile (some out) um = some zeroProbeOutput) ∧
    (∀ (cfg : JobConfig) (env : Env), probeFile env.ffprobeExec env.unmarshal = none →
      (startEncoding cfg env).1 = [] ∧ (startEncoding cfg env).2.err = some "ffprobe") := by
  refine ⟨?_, ?_, ?_⟩
  · intro res um
    cases res <;> simp [probeFile]
  · intro out um h
    simp [probeFile, h]
  · intro cfg env h
    rw [startEncoding, h]
    exact ⟨rfl, rfl⟩

/-- Witness for C7 (amended): a nonzero-exit probe aborts the pipeline
before any subprocess. -/
theorem c7_probe_error_witness :
    (startEncoding cfgC7 envC7).1 = [] ∧
      (startEncoding cfgC7 envC7).2.err = some "ffprobe" :=
  c7_probe_error.2.2 cfgC7 envC7 rfl

/-! ### C8 (corrected) -/

/-- C8 counterexample: when the output artifact cannot be stat-ed after a
successful final stage, `finishWork` still reports success (nil error),
not a fatal error. -/
theorem c8_finish_counterexample :
    (finishWork noStatC8 "out.mp4").err = none ∧
      (finishWork noStatC8 "out.mp4").finalSize = "Unknown" := ⟨rfl, rfl⟩

/-- C8 (amended): the finalization always reports success; a failing stat
yields the size string `Unknown` and a successful stat yields the
rendered megabyte size — the outcome remains strictly binary, but a stat
failure is not turned into a failure outcome. -/
theorem c8_finish_success (statSize : String → Option ℕ) (path : String) :
    (finishWork statSize path).err = none ∧
    (statSize path = none → (finishWork statSize path).finalSize = "Unknown") ∧
    (∀ sz, statSize path = some sz →
      (finishWork statSize path).finalSize = mbString sz) := by
  refine ⟨?_, ?_, ?_⟩
  · cases h : statSize path <;> simp [finishWork, h]
  · intro h
    simp [finishWork, h]
  · intro sz h
    simp [finishWork, h]

/-- Witness for C8 (amended) at a failing stat. -/
theorem c8_finish_success_witness :
    (finishWork noStatC8 "o.webm").err = none ∧
      (finishWork noStatC8 "o.webm").finalSize = "Unknown" :=
  ⟨(c8_finish_success noStatC8 "o.webm").1,
   (c8_finish_success noStatC8 "o.webm").2.1 rfl⟩

/-! ### C9 -/

/-- C9: every (backend, codec) pair exposed in the encoder table has a
5-element preset-token array (so every quality level in `[0,4]` indexes
in bounds) and a defined constant-quality slider mapping for every CRF
slider value in `[0,10]`. -/
theorem c9_preset_mapping :
    ∀ (hw : HwType), ∀ c ∈ encoderMap hw, ∀ q ≤ 4, ∀ s ≤ 10,
      (presetArrayFor hw c.ffmpegLib).isSome ∧
      ((presetArrayFor hw c.ffmpegLib).getD []).length = 5 ∧
      (((presetArrayFor hw c.ffmpegLib).getD []).get? q).isSome ∧
      (crfValueFor hw c.ffmpegLib s).isSome := by
  intro hw
  cases hw <;> decide

/-- Witness for C9 at the CPU SVT-AV1 entry, quality 2, slider 5. -/
theorem c9_preset_mapping_witness :
    (presetArrayFor HwType.cpu "libsvtav1").isSome ∧
      ((presetArrayFor HwType.cpu "libsvtav1").getD []).length = 5 ∧
      (((presetArrayFor HwType.cpu "libsvtav1").getD []).get? 2).isSome ∧
      (crfValueFor HwType.cpu "libsvtav1" 5).isSome :=
  c9_preset_mapping HwType.cpu ⟨"AV1 (SVT-AV1, Balanced, Recommended)", "libsvtav1", ".webm"⟩
    (by decide) 2 (by decide) 5 (by decide)

/-! ### C10 (corrected) -/

/-- C10 counterexample: with the trim range `1s`–`5s` the code uses
duration 4 (it strips the trailing `s` before parsing), while the
mapping as the claim words it leaves the probed duration 60 unchanged. -/
theorem c10_trim_counterexample :
    effectiveDuration 60 "1s" "5s" = 4 ∧ claimEffectiveDuration 60 "1s" "5s" = 60 := by
  have h1 : parseDuration "1s" = 1 := by
    have a1 : goTrimSuffixStr "1s" "s" = "1" := by decide
    have a2 : strSplit "1" ':' = ["1"] := by decide
    have a3 : goParseFloat "1" = some 1 := by decide
    rw [parseDuration, a1, a2]
    norm_num [durParts, a3]
  have h2 : parseDuration "5s" = 5 := by
    have a1 : goTrimSuffixStr "5s" "s" = "5" := by decide
    have a2 : strSplit "5" ':' = ["5"] := by decide
    have a3 : goParseFloat "5" = some 5 := by decide
    rw [parseDuration, a1, a2]
    norm_num [durParts, a3]
  have c1s : claimParseDuration "1s" = 0 := by
    have b1 : strSplit "1s" ':' = ["1s"] := by decide
    have b2 : goParseFloat "1s" = none := by decide
    rw [claimParseDuration, b1]
    simp [weightedSum, weightList, b2, List.range_succ]
  have c5s : claimParseDuration "5s" = 0 := by
    have b1 : strSplit "5s" ':' = ["5s"] := by decide
    have b2 : goParseFloat "5s" = none := by decide
    rw [claimParseDuration, b1]
    simp [weightedSum, weightList, b2, List.range_succ]
  constructor
  · have hc : ("1s" : String) ≠ "" ∧ ("5s" : String) ≠ "" := ⟨by decide, by decide⟩
    simp only [effectiveDuration, if_pos hc, h1, h2]
    norm_num
  · rw [claimEffectiveDuration, if_neg]
    rw [c1s, c5s]
    norm_num

/-- C10 (amended): the duration used by the pipeline equals
`parseDuration(end) − parseDuration(start)` exactly when both trim
bounds are non-empty and the parsed end exceeds the parsed start, else
the probed duration; and `parseDuration` first strips one trailing `s`,
then totally maps the colon-separated components with weights
1, 60, 3600, … (times 60 per further component), an unparsable component
counting as 0. -/
theorem c10_trim_duration (probed : ℚ) (ts te s : String) :
    effectiveDuration probed ts te =
      (if ts ≠ "" ∧ te ≠ "" ∧ parseDuration ts < parseDuration te
       then parseDuration te - parseDuration ts else probed) ∧
    parseDuration s = weightedSum (strSplit (goTrimSuffixStr s "s") ':') := by
  constructor
  · rw [effectiveDuration]
    by_cases h : ts ≠ "" ∧ te ≠ ""
    · rw [if_pos h]
      by_cases h2 : parseDuration ts < parseDuration te
      · rw [if_pos h2, if_pos ⟨h.1, h.2, h2⟩]
      · rw [if_neg h2, if_neg (by tauto)]
    · rw [if_neg h, if_neg (by tauto)]
  · rw [parseDuration, durParts_fst]

/-! ### Leftover-file evaluation of the pipeline branches -/

theorem gifBranch_leftover (cfg : JobConfig) (env : Env) :
    leftoverFiles (gifBranch cfg env).1 = [] := by
  rw [gifBranch]
  cases h0 : env.ffOk 0 <;> cases h1 : env.ffOk 1 <;>
    simp [h0, h1, leftoverFiles, createdFiles, removedFiles, eventCreates, eventRemoves]

theorem apngBranch_leftover (cfg : JobConfig) (env : Env) :
    leftoverFiles (apngBranch cfg env).1 = [] := by
  rw [apngBranch]
  cases h0 : env.ffOk 0 <;>
    simp [h0, leftoverFiles, createdFiles, removedFiles, eventCreates, eventRemoves]

theorem cpuCrfPlan_leftover (cfg : JobConfig) (env : Env) (ha : Bool) :
    leftoverFiles (cpuCrfPlan cfg env ha).1 = [] := by
  rw [cpuCrfPlan]
  cases h0 : env.ffOk 0 <;>
    simp [h0, leftoverFiles, createdFiles, removedFiles, eventCreates, eventRemoves]

theorem hwPlan_leftover (cfg : JobConfig) (env : Env) (ha : Bool) (d : ℚ) :
    leftoverFiles (hwPlan cfg env ha d).1 = [] := by
  rw [hwPlan]
  cases h0 : env.ffOk 0 <;>
    simp [h0, leftoverFiles, createdFiles, removedFiles, eventCreates, eventRemoves]

theorem cpuTwoPassPlan_leftover (cfg : JobConfig) (env : Env) (ha : Bool) (d : ℚ) :
    leftoverFiles (cpuTwoPassPlan cfg env ha d).1 =
      (if env.ffOk 0 ∧ env.ffOk 1 then [] else [TempFile.passLog0 env.ts]) := by
  rw [cpuTwoPassPlan]
  cases h0 : env.ffOk 0 <;> cases h1 : env.ffOk 1 <;>
    simp [h0, h1, leftoverFiles, createdFiles, removedFiles, eventCreates, eventRemoves]

theorem videoBranch_leftover (cfg : JobConfig) (env : Env) (info : FFProbeOutput) :
    leftoverFiles (videoBranch cfg env info).1 = [] ∨
      leftoverFiles (videoBranch cfg env info).1 = [TempFile.passLog0 env.ts] := by
  rw [videoBranch]
  by_cases hcpu : cfg.hw = HwType.cpu
  · by_cases hcrf : cfg.targetMB ≤ 0
    · rw [if_pos hcpu, if_pos hcrf]
      exact Or.inl (cpuCrfPlan_leftover cfg env _)
    · rw [if_pos hcpu, if_neg hcrf, cpuTwoPassPlan_leftover]
      by_cases hok : env.ffOk 0 ∧ env.ffOk 1
      · exact Or.inl (by rw [if_pos hok])
      · exact Or.inr (by rw [if_neg hok])
  · rw [if_neg hcpu]
    exact Or.inl (hwPlan_leftover cfg env _ _)

/-! ### C3 -/

/-- C3 (code evaluated at the failing input): with an explicit 10 MB
size target and a probed duration of 0, the resolver takes no defined
fallback — the job is neither rejected nor forced into quality mode; the
division-based bitrate computation is reached and the two-pass
size-targeted encode runs to completion. -/
theorem c3_zero_duration_no_fallback :
    durationOf cfgC3 probeC3 = 0 ∧ 0 < cfgC3.targetMB ∧
    stageNames (startEncoding cfgC3 envC3).1 =
      ["Pass 1 (Analysis)", "Pass 2 (Encoding)"] ∧
    (startEncoding cfgC3 envC3).2.err = none :=
  ⟨by decide, by decide, by decide, by decide⟩

/-! ### C4 (corrected) -/

/-- C4 counterexample: when pass 2 of a two-pass encode fails, the
two-pass statistics log created by pass 1 is not removed — it remains on
disk although the run has failed. -/
theorem c4_cleanup_counterexample :
    leftoverFiles (startEncoding cfgC4 envC4).1 = [TempFile.passLog0 0] ∧
      (startEncoding cfgC4 envC4).2.err = some "Pass 2 (Encoding)" :=
  ⟨by decide, by decide⟩

/-- C4 (amended): the palette image is removed on every exit path
(deferred removal), and when every stage succeeds no intermediate
artifact remains; but the two-pass statistics log is removed only after
pass 2 succeeds — on an encode-stage failure in the two-pass path it
remains on disk. -/
theorem c4_cleanup (cfg : JobConfig) (env : Env) :
    TempFile.palette env.ts ∉ leftoverFiles (startEncoding cfg env).1 ∧
    ((∀ n, env.ffOk n = true) → leftoverFiles (startEncoding cfg env).1 = []) := by
  cases hp : probeFile env.ffprobeExec env.unmarshal with
  | none =>
    simp [startEncoding, hp, leftoverFiles, createdFiles]
  | some info =>
    cases hm : cfg.mode
    case gif =>
      simp only [startEncoding, hp, hm, gifBranch_leftover]
      exact ⟨by simp, fun _ => trivial⟩
    case apng =>
      simp only [startEncoding, hp, hm, apngBranch_leftover]
      exact ⟨by simp, fun _ => trivial⟩
    case video =>
      simp only [startEncoding, hp, hm]
      constructor
      · rcases videoBranch_leftover cfg env info with h | h <;> rw [h] <;> simp
      · intro hok
        rw [videoBranch]
        by_cases hcpu : cfg.hw = HwType.cpu
        · by_cases hcrf : cfg.targetMB ≤ 0
          · rw [if_pos hcpu, if_pos hcrf, cpuCrfPlan_leftover]
          · rw [if_pos hcpu, if_neg hcrf, cpuTwoPassPlan_leftover,
              if_pos ⟨hok 0, hok 1⟩]
        · rw [if_neg hcpu, hwPlan_leftover]
    case avif =>
      simp only [startEncoding, hp, hm]
      constructor
      · rcases videoBranch_leftover cfg env info with h | h <;> rw [h] <;> simp
      · intro hok
        rw [videoBranch]
        by_cases hcpu : cfg.hw = HwType.cpu
        · by_cases hcrf : cfg.targetMB ≤ 0
          · rw [if_pos hcpu, if_pos hcrf, cpuCrfPlan_leftover]
          · rw [if_pos hcpu, if_neg hcrf, cpuTwoPassPlan_leftover,
              if_pos ⟨hok 0, hok 1⟩]
        · rw [if_neg hcpu, hwPlan_leftover]

/-- Witness for C4 (amended) on a fully successful two-pass run. -/
theorem c4_cleanup_witness :
    TempFile.palette 0 ∉ leftoverFiles (startEncoding cfgC4 envC4ok).1 ∧
      leftoverFiles (startEncoding cfgC4 envC4ok).1 = [] :=
  ⟨(c4_cleanup cfgC4 envC4ok).1, (c4_cleanup cfgC4 envC4ok).2 (fun _ => rfl)⟩

/-! ### C2 -/

theorem argAfter_passArgs_eq (cfg : JobConfig) (env : Env) (kb : String) (ha : Bool) :
    argAfter "-b:v" (passArgs1 cfg env kb) = argAfter "-b:v" (passArgs2 cfg env kb ha) := by
  have h := argAfter_congr "-b:v" kb
    ("-y" :: (trimArgsOf cfg ++ ["-i", cfg.inputFile, "-c:v", cfg.codec.ffmpegLib]))
    ("-pass" :: "1" :: "-passlogfile" :: passLogBase env :: "-an" ::
      (filterArgsOf cfg ++
        (cpuExtraArgs cfg.mode cfg.codec.ffmpegLib cfg.quality cfg.crfSlider false ++
          ["-f", "null", "/dev/null"])))
    ("-pass" :: "2" :: "-passlogfile" :: passLogBase env ::
      (filterArgsOf cfg ++
        (cpuExtraArgs cfg.mode cfg.codec.ffmpegLib cfg.quality cfg.crfSlider false ++
          (audioArgsOf cfg ha ++ (formatArgsOf cfg ++ [outputFileOf cfg])))))
  simpa [passArgs1, passArgs2, List.append_assoc] using h

theorem argAfter_passArgs1_isSome (cfg : JobConfig) (env : Env) (kb : String) :
    (argAfter "-b:v" (passArgs1 cfg env kb)).isSome := by
  have h := argAfter_isSome "-b:v" kb
    ("-y" :: (trimArgsOf cfg ++ ["-i", cfg.inputFile, "-c:v", cfg.codec.ffmpegLib]))
    ("-pass" :: "1" :: "-passlogfile" :: passLogBase env :: "-an" ::
      (filterArgsOf cfg ++
        (cpuExtraArgs cfg.mode cfg.codec.ffmpegLib cfg.quality cfg.crfSlider false ++
          ["-f", "null", "/dev/null"])))
  simpa [passArgs1, List.append_assoc] using h

theorem cpuTwoPassPlan_trace (cfg : JobConfig) (env : Env) (ha : Bool) (d : ℚ)
    (h0 : env.ffOk 0 = true) (h1 : env.ffOk 1 = true) :
    (cpuTwoPassPlan cfg env ha d).1 =
      [Event.run "Pass 1 (Analysis)"
         (passArgs1 cfg env (toString (computeVideoKBit cfg.targetMB d ha) ++ "k"))
         [TempFile.passLog0 env.ts],
       Event.run "Pass 2 (Encoding)"
         (passArgs2 cfg env (toString (computeVideoKBit cfg.targetMB d ha) ++ "k") ha) [],
       Event.remove (TempFile.passLog0 env.ts),
       Event.remove (TempFile.passLogMain env.ts),
       Event.remove (TempFile.passLogTree env.ts)] := by
  rw [cpuTwoPassPlan]
  simp [h0, h1]

theorem gifBranch_single (cfg : JobConfig) (env : Env)
    (h0 : env.ffOk 0 = true) (h1 : env.ffOk 1 = true) :
    (encodeRuns (gifBranch cfg env).1).length = 1 ∧
      ∀ e ∈ (gifBranch cfg env).1, eventCreates e ⊆ [TempFile.palette env.ts] := by
  rw [gifBranch]
  constructor
  · simp [h0, h1, encodeRuns]
  · intro e he
    simp [h0, h1] at he
    rcases he with h | h | h <;> subst h <;> simp [eventCreates]

theorem apngBranch_single (cfg : JobConfig) (env : Env) (h0 : env.ffOk 0 = true) :
    (encodeRuns (apngBranch cfg env).1).length = 1 ∧
      ∀ e ∈ (apngBranch cfg env).1, eventCreates e ⊆ [TempFile.palette env.ts] := by
  rw [apngBranch]
  constructor
  · simp [h0, encodeRuns]
  · intro e he
    simp [h0] at he
    subst he
    simp [eventCreates]

theorem cpuCrfPlan_single (cfg : JobConfig) (env : Env) (ha : Bool)
    (h0 : env.ffOk 0 = true) :
    (encodeRuns (cpuCrfPlan cfg env ha).1).length = 1 ∧
      ∀ e ∈ (cpuCrfPlan cfg env ha).1, eventCreates e ⊆ [TempFile.palette env.ts] := by
  rw [cpuCrfPlan]
  constructor
  · simp [h0, encodeRuns]
  · intro e he
    simp [h0] at he
    subst he
    simp [eventCreates]

theorem hwPlan_single (cfg : JobConfig) (env : Env) (ha : Bool) (d : ℚ)
    (h0 : env.ffOk 0 = true) :
    (encodeRuns (hwPlan cfg env ha d).1).length = 1 ∧
      ∀ e ∈ (hwPlan cfg env ha d).1, eventCreates e ⊆ [TempFile.palette env.ts] := by
  rw [hwPlan]
  constructor
  · simp [h0, encodeRuns]
  · intro e he
    simp [h0] at he
    subst he
    simp [eventCreates]

/-- C2: with every stage succeeding, the pipeline runs exactly two encode
subprocesses iff the backend is the CPU, an explicit size target is set
and the mode is neither GIF nor APNG (the claim's palette-based modes);
in that case stage 2's `-b:v` argument equals stage 1's; in every other
case exactly one encode subprocess runs and no stage creates a two-pass
statistics artifact (every created temp file is at most the palette). -/
theorem c2_pass_count (cfg : JobConfig) (env : Env) (info : FFProbeOutput)
    (hp : probeFile env.ffprobeExec env.unmarshal = some info)
    (hok : ∀ n, env.ffOk n = true) :
    ((cfg.hw = HwType.cpu ∧ 0 < cfg.targetMB ∧ cfg.mode ≠ OutputMode.gif ∧
        cfg.mode ≠ OutputMode.apng) →
      ∃ a1 a2,
        (startEncoding cfg env).1 =
          [Event.run "Pass 1 (Analysis)" a1 [TempFile.passLog0 env.ts],
           Event.run "Pass 2 (Encoding)" a2 [],
           Event.remove (TempFile.passLog0 env.ts),
           Event.remove (TempFile.passLogMain env.ts),
           Event.remove (TempFile.passLogTree env.ts)] ∧
        (encodeRuns (startEncoding cfg env).1).length = 2 ∧
        argAfter "-b:v" a1 = argAfter "-b:v" a2 ∧
        (argAfter "-b:v" a1).isSome) ∧
    (¬(cfg.hw = HwType.cpu ∧ 0 < cfg.targetMB ∧ cfg.mode ≠ OutputMode.gif ∧
        cfg.mode ≠ OutputMode.apng) →
      (encodeRuns (startEncoding cfg env).1).length = 1 ∧
      ∀ e ∈ (startEncoding cfg env).1, eventCreates e ⊆ [TempFile.palette env.ts]) := by
  constructor
  · rintro ⟨hcpu, hmb, hgif, hapng⟩
    have hvb : (startEncoding cfg env).1 =
        (cpuTwoPassPlan cfg env (hasAudioOf info) (durationOf cfg info)).1 := by
      cases hm : cfg.mode
      case gif => exact absurd hm hgif
      case apng => exact absurd hm hapng
      all_goals
        simp only [startEncoding, hp, hm, videoBranch, if_pos hcpu,
          if_neg (not_le.mpr hmb)]
    rw [hvb, cpuTwoPassPlan_trace cfg env _ _ (hok 0) (hok 1)]
    refine ⟨_, _, rfl, ?_, argAfter_passArgs_eq cfg env _ _,
      argAfter_passArgs1_isSome cfg env _⟩
    simp [encodeRuns]
  · intro hnot
    cases hm : cfg.mode
    case gif =>
      simp only [startEncoding, hp, hm]
      exact gifBranch_single cfg env (hok 0) (hok 1)
    case apng =>
      simp only [startEncoding, hp, hm]
      exact apngBranch_single cfg env (hok 0)
    case video =>
      simp only [startEncoding, hp, hm]
      rw [videoBranch]
      by_cases hcpu : cfg.hw = HwType.cpu
      · have hmb : cfg.targetMB ≤ 0 := by
          by_contra hgt
          exact hnot ⟨hcpu, not_le.mp hgt, by simp [hm], by simp [hm]⟩
        rw [if_pos hcpu, if_pos hmb]
        exact cpuCrfPlan_single cfg env _ (hok 0)
      · rw [if_neg hcpu]
        exact hwPlan_single cfg env _ _ (hok 0)
    case avif =>
      simp only [startEncoding, hp, hm]
      rw [videoBranch]
      by_cases hcpu : cfg.hw = HwType.cpu
      · have hmb : cfg.targetMB ≤ 0 := by
          by_contra hgt
          exact hnot ⟨hcpu, not_le.mp hgt, by simp [hm], by simp [hm]⟩
        rw [if_pos hcpu, if_pos hmb]
        exact cpuCrfPlan_single cfg env _ (hok 0)
      · rw [if_neg hcpu]
        exact hwPlan_single cfg env _ _ (hok 0)

/-- Witness for C2 on a CPU 10 MB video job with every stage
succeeding. -/
theorem c2_pass_count_witness :
    (encodeRuns (startEncoding cfgC2 envC2).1).length = 2 := by
  obtain ⟨a1, a2, -, hlen, -, -⟩ :=
    (c2_pass_count cfgC2 envC2 probeC2 rfl (fun _ => rfl)).1
      ⟨rfl, by decide, by decide, by decide⟩
  exact hlen

end Teacrush






